import Mathlib

/-!
Shallow embedding of `src/NetworkHelpers.py` (repository
`Natsyu/mgr_transferlearning`).

The model, optimizer and criterion are opaque learned components, so a
mini-batch is represented by the observable quantities the helper functions
actually consume: its size (`data.size(0)` / `len(target.data)`) and the
scalar loss the criterion reports on it (`loss.item()`).  Python floats are
modelled as rationals.  `np.Inf` (the initial best validation loss) is
modelled by `none : Option ℚ`.  Python lists that the code mutates in place
are threaded explicitly; a Python function that can fall off the end without
a `return` yields `none` (Python's `None`).
-/

namespace NetworkHelpers

/-- A mini-batch: its size and the criterion's loss value on it. -/
structure Batch where
  size : ℕ
  loss : ℚ
deriving DecidableEq

/-- `train_model` (NetworkHelpers.py, lines 68-96).  The Python body is a
`for` loop over `netparams.train_loader` whose final statement
`return train_loss` is indented inside the loop body: the first batch is
processed (gradient step, `train_loss += loss.item() * data.size(0)`) and
the function returns immediately.  With an empty loader the loop body never
runs and the function implicitly returns Python `None`, modelled as `none`.
The `train_loss_tmp` accumulator and the every-20-batches print affect only
console output, not the returned value. -/
def train_model (batches : List Batch) (train_loss : ℚ) : Option ℚ :=
  match batches with
  | [] => none
  | b :: _ => some (train_loss + b.loss * (b.size : ℚ))

/-- `valid_loss <= valid_loss_min` where `valid_loss_min` starts as
`np.Inf`: `none` stands for infinity, so every value compares `≤` it. -/
def leInf (v : ℚ) : Option ℚ → Bool
  | none => true
  | some m => decide (v ≤ m)

/-- Python's `f'...:03d...'` field: the decimal digits of `n`, padded on
the left with `'0'` to a minimum width of 3. -/
def format03 (n : ℕ) : String :=
  String.mk (List.replicate (3 - (toString n).length) '0') ++ toString n

/-- The checkpoint filename `f'...:03d...model_cifar.pt'` written by
`torch.save` in `evaluate_model` (line 131). -/
def save_filename (epoch : ℕ) : String :=
  format03 epoch ++ "model_cifar.pt"

/-- `valid_loss += loss.item() * data.size(0)` accumulated over the batches
of a loader, starting from `acc`. -/
def sum_batch_loss (batches : List Batch) (acc : ℚ) : ℚ :=
  batches.foldl (fun a b => a + b.loss * (b.size : ℚ)) acc

/-- The observable outcome of one `evaluate_model` call: the returned
`valid_loss_min`, the callee-local final value of `no_improvement` (a
Python `int`, passed by value, so this value is NOT seen by the caller),
the checkpoint file written by `torch.save` (if any), and the two loss
arrays (Python lists, mutated in place, so the caller DOES see these). -/
structure EvalResult where
  valid_loss_min : Option ℚ
  no_improvement : ℕ
  saved : Option String
  train_loss_array : List ℚ
  valid_loss_array : List ℚ
deriving DecidableEq

/-- `evaluate_model` (NetworkHelpers.py, lines 99-137).  The validation
loader and the two sampler lengths stand in for `netparams`; the remaining
arguments follow the Python signature.  The body: accumulate
`valid_loss += loss.item() * data.size(0)` over the validation loader,
normalize `train_loss` by `len(netparams.train_loader.sampler)` and
`valid_loss` by `len(netparams.validation_loader.sampler)`, append both to
the history arrays, then save a checkpoint, update `valid_loss_min` and
reset `no_improvement` when `valid_loss <= valid_loss_min`, otherwise
increment `no_improvement`.  Only `valid_loss_min` is returned in Python;
the record also exposes the in-place array mutations and the side effects. -/
def evaluate_model (valid_batches : List Batch)
    (n_train_sampler n_valid_sampler : ℕ)
    (train_loss valid_loss : ℚ) (valid_loss_min : Option ℚ)
    (valid_loss_array train_loss_array : List ℚ)
    (epoch : ℕ) (no_improvement : ℕ) : EvalResult :=
  let valid_sum := sum_batch_loss valid_batches valid_loss
  let train_mean := train_loss / (n_train_sampler : ℚ)
  let valid_mean := valid_sum / (n_valid_sampler : ℚ)
  let tla := train_loss_array ++ [train_mean]
  let vla := valid_loss_array ++ [valid_mean]
  if leInf valid_mean valid_loss_min then
    ⟨some valid_mean, 0, some (save_filename epoch), tla, vla⟩
  else
    ⟨valid_loss_min, no_improvement + 1, none, tla, vla⟩

/-- The state `train_loop` carries across epochs: `valid_loss_min` and the
two history arrays.  `no_improvement` is deliberately absent: in the Python
code it is never reassigned inside `train_loop` (the increment happens on
`evaluate_model`'s local copy), so it stays at its initial value. -/
structure LoopState where
  valid_loss_min : Option ℚ
  train_loss_array : List ℚ
  valid_loss_array : List ℚ
deriving DecidableEq

/-- The epoch loop of `train_loop` (lines 19-59), as a recursion on the
number of remaining epochs.  Each iteration first checks
`no_improvement >= netparams.max_no_improve_epochs` (with the caller's
never-updated `no_improvement`), then runs `train_model` and
`evaluate_model`.  `train_batches epoch` / `valid_batches epoch` are the
batches the two loaders yield during epoch `epoch`.  If `train_model`
returns Python `None` (empty train loader), `evaluate_model` would raise a
`TypeError` on `train_loss / len(...)`; that crash is modelled as `none`. -/
def train_loop_go (max_no_improve no_improvement : ℕ)
    (train_batches valid_batches : ℕ → List Batch)
    (n_train_sampler n_valid_sampler : ℕ) :
    ℕ → ℕ → LoopState → Option LoopState
  | 0, _, st => some st
  | k + 1, epoch, st =>
    if max_no_improve ≤ no_improvement then some st
    else
      match train_model (train_batches epoch) 0 with
      | none => none
      | some train_loss =>
        let r := evaluate_model (valid_batches epoch)
          n_train_sampler n_valid_sampler train_loss 0 st.valid_loss_min
          st.valid_loss_array st.train_loss_array epoch no_improvement
        train_loop_go max_no_improve no_improvement train_batches
          valid_batches n_train_sampler n_valid_sampler k (epoch + 1)
          ⟨r.valid_loss_min, r.train_loss_array, r.valid_loss_array⟩

/-- `train_loop` (NetworkHelpers.py, lines 10-65): run the epoch loop for
`n_epochs` epochs starting from `valid_loss_min = np.Inf` and empty history
arrays, and return `(train_loss_array, valid_loss_array)`. -/
def train_loop (n_epochs max_no_improve no_improvement : ℕ)
    (train_batches valid_batches : ℕ → List Batch)
    (n_train_sampler n_valid_sampler : ℕ) : Option (List ℚ × List ℚ) :=
  (train_loop_go max_no_improve no_improvement train_batches valid_batches
      n_train_sampler n_valid_sampler n_epochs 1 ⟨none, [], []⟩).map
    (fun st => (st.train_loss_array, st.valid_loss_array))

/-- A test-loader mini-batch: the criterion's loss on it, the true class
labels (`target.data`), and the per-sample prediction correctness flags
(`pred.eq(target.data.view_as(pred))`).  The batch size `len(target.data)`
is `labels.length`. -/
structure TestBatch where
  loss : ℚ
  labels : List ℕ
  correct : List Bool
deriving DecidableEq

/-- The inner accuracy loop of `test_model` (lines 178-181):
`for i in range(netparams.batch_size)` reads `target.data[i]` and
`correct[i]` and bumps `class_correct[label]` and `class_total[label]`
(Python lists indexed by label).  `List.set`/`List.getD` model the indexed
updates; `correct[i].item()` adds 1 for a correct prediction, 0 otherwise. -/
def tally_step (p : List ℚ × List ℚ) (lc : ℕ × Bool) : List ℚ × List ℚ :=
  (p.1.set lc.1 (p.1.getD lc.1 0 + (if lc.2 then 1 else 0)),
   p.2.set lc.1 (p.2.getD lc.1 0 + 1))

def tally (batch_size : ℕ) (b : TestBatch) (cc ct : List ℚ) : List ℚ × List ℚ :=
  ((b.labels.zip b.correct).take batch_size).foldl tally_step (cc, ct)

/-- The batch loop of `test_model` (lines 157-181).  Note the guard
`if len(target.data) < netparams.batch_size: break` — a `break`, not a
`continue`: the first batch smaller than the configured batch size stops
the whole loop, so no later batch is processed either.  A retained batch
adds `loss.item() * data.size(0)` to the loss sum and its samples to the
per-class tallies. -/
def test_model_go (batch_size : ℕ) :
    List TestBatch → ℚ × List ℚ × List ℚ → ℚ × List ℚ × List ℚ
  | [], st => st
  | b :: rest, (test_loss, cc, ct) =>
    if b.labels.length < batch_size then (test_loss, cc, ct)
    else
      let p := tally batch_size b cc ct
      test_model_go batch_size rest
        (test_loss + b.loss * (b.labels.length : ℚ), p.1, p.2)

/-- `test_model` (NetworkHelpers.py, lines 147-198): start from zero loss
and `class_num` zeroed per-class counters, run the batch loop, and divide
the loss sum by `len(netparams.test_loader.dataset)`.  Returns
`(mean test loss, class_correct, class_total)`. -/
def test_model (batch_size class_num : ℕ) (batches : List TestBatch)
    (dataset_size : ℕ) : ℚ × List ℚ × List ℚ :=
  let st := test_model_go batch_size batches
    (0, List.replicate class_num 0, List.replicate class_num 0)
  (st.1 / (dataset_size : ℚ), st.2.1, st.2.2)

/-- The per-class accuracy report of `test_model` (lines 187-194): for
class `i`, `some` of `class_correct[i] / class_total[i]` when
`class_total[i] > 0`, and `none` for the `N/A (no training examples)`
branch. -/
def class_report (class_correct class_total : List ℚ) (i : ℕ) : Option ℚ :=
  if 0 < class_total.getD i 0 then
    some (class_correct.getD i 0 / class_total.getD i 0)
  else none

/-- `loss.item() * data.size(0)` summed over a list of test batches,
starting from `acc`. -/
def test_loss_sum (batches : List TestBatch) (acc : ℚ) : ℚ :=
  batches.foldl (fun a b => a + b.loss * (b.labels.length : ℚ)) acc

/-- A concrete train loader: every epoch yields one batch of size 1 with
loss 0. -/
def tb_demo : ℕ → List Batch := fun _ => [⟨1, 0⟩]

/-- A concrete validation loader realizing per-epoch mean validation losses
0.5, 0.6, 0.4 (each epoch one batch of size 1, sampler size 1). -/
def vb_demo : ℕ → List Batch := fun e =>
  [⟨1, if e = 1 then 1 / 2 else if e = 2 then 3 / 5 else 2 / 5⟩]

/-- A concrete validation loader realizing per-epoch mean validation losses
0.5, 0.6, 0.7: strictly worsening after the first epoch. -/
def vb_demo2 : ℕ → List Batch := fun e =>
  [⟨1, if e = 1 then 1 / 2 else if e = 2 then 3 / 5 else 7 / 10⟩]

/-- Order on best-so-far validation losses, `none` being `np.Inf`:
`optLE a b` says `a` is at most `b`. -/
def optLE (a b : Option ℚ) : Prop :=
  match b with
  | none => True
  | some bv => ∃ av, a = some av ∧ av ≤ bv

lemma optLE_refl (a : Option ℚ) : optLE a a := by
  cases a with
  | none => trivial
  | some v => exact ⟨v, rfl, le_refl v⟩

lemma optLE_trans {a b c : Option ℚ} (hab : optLE a b) (hbc : optLE b c) :
    optLE a c := by
  cases c with
  | none => trivial
  | some cv =>
    obtain ⟨bv, hb, hbv⟩ := hbc
    subst hb
    obtain ⟨av, ha, hav⟩ := hab
    exact ⟨av, ha, le_trans hav hbv⟩

lemma evaluate_model_arrays (vb : List Batch) (nT nV : ℕ) (tl vl : ℚ)
    (vlm : Option ℚ) (vla tla : List ℚ) (epoch ni : ℕ) :
    (evaluate_model vb nT nV tl vl vlm vla tla epoch ni).train_loss_array
        = tla ++ [tl / (nT : ℚ)]
      ∧ (evaluate_model vb nT nV tl vl vlm vla tla epoch ni).valid_loss_array
        = vla ++ [sum_batch_loss vb vl / (nV : ℚ)] := by
  simp only [evaluate_model]
  split <;> exact ⟨rfl, rfl⟩

lemma evaluate_model_vlm (vb : List Batch) (nT nV : ℕ) (tl vl : ℚ)
    (vlm : Option ℚ) (vla tla : List ℚ) (epoch ni : ℕ) :
    optLE (evaluate_model vb nT nV tl vl vlm vla tla epoch ni).valid_loss_min
      vlm := by
  simp only [evaluate_model]
  split
  · rename_i h
    cases vlm with
    | none => trivial
    | some m =>
      simp only [leInf] at h
      exact ⟨_, rfl, of_decide_eq_true h⟩
  · exact optLE_refl vlm

/-- Every element of the list is nonnegative. -/
def nonnegL (l : List ℚ) : Prop := ∀ x ∈ l, 0 ≤ x

lemma nonnegL_getD {l : List ℚ} (h : nonnegL l) (i : ℕ) : 0 ≤ l.getD i 0 := by
  rw [List.getD_eq_getElem?_getD]
  cases hg : l[i]? with
  | none => simp
  | some x => simpa using h x (List.getElem?_mem hg)

lemma nonnegL_set {l : List ℚ} {x : ℚ} (h : nonnegL l) (hx : 0 ≤ x) (i : ℕ) :
    nonnegL (l.set i x) := by
  intro y hy
  rcases List.mem_or_eq_of_mem_set hy with hmem | rfl
  · exact h y hmem
  · exact hx

lemma tally_fold_ct_nonneg (l : List (ℕ × Bool)) :
    ∀ cc ct : List ℚ, nonnegL ct → nonnegL (l.foldl tally_step (cc, ct)).2 := by
  induction l with
  | nil => intro cc ct h; exact h
  | cons lc rest ih =>
    intro cc ct h
    have hstep : nonnegL (tally_step (cc, ct) lc).2 := by
      unfold tally_step
      have hg := nonnegL_getD h lc.1
      exact nonnegL_set h (by linarith) lc.1
    have : (tally_step (cc, ct) lc) =
        ((tally_step (cc, ct) lc).1, (tally_step (cc, ct) lc).2) := rfl
    rw [List.foldl_cons, this]
    exact ih _ _ hstep

lemma tally_ct_nonneg (batch_size : ℕ) (b : TestBatch) (cc ct : List ℚ)
    (h : nonnegL ct) : nonnegL (tally batch_size b cc ct).2 :=
  tally_fold_ct_nonneg _ cc ct h

lemma test_model_go_ct_nonneg (batch_size : ℕ) (batches : List TestBatch) :
    ∀ (tl : ℚ) (cc ct : List ℚ), nonnegL ct →
      nonnegL (test_model_go batch_size batches (tl, cc, ct)).2.2 := by
  induction batches with
  | nil => intro tl cc ct h; exact h
  | cons b rest ih =>
    intro tl cc ct h
    rw [test_model_go]
    split
    · exact h
    · exact ih _ _ _ (tally_ct_nonneg batch_size b cc ct h)

lemma test_model_ct_nonneg (batch_size class_num : ℕ) (batches : List TestBatch)
    (dataset_size : ℕ) :
    nonnegL (test_model batch_size class_num batches dataset_size).2.2 := by
  unfold test_model
  exact test_model_go_ct_nonneg batch_size batches 0 _ _
    (by intro x hx; rw [List.eq_of_mem_replicate hx])

lemma test_model_go_loss (batch_size : ℕ) (batches : List TestBatch) :
    ∀ (tl : ℚ) (cc ct : List ℚ),
      (test_model_go batch_size batches (tl, cc, ct)).1
        = test_loss_sum
            (batches.takeWhile (fun b => decide (batch_size ≤ b.labels.length)))
            tl := by
  induction batches with
  | nil => intro tl cc ct; rfl
  | cons b rest ih =>
    intro tl cc ct
    rw [test_model_go]
    by_cases hb : b.labels.length < batch_size
    · rw [if_pos hb,
        List.takeWhile_cons_of_neg (by simpa using not_le.mpr hb)]
      rfl
    · rw [if_neg hb,
        List.takeWhile_cons_of_pos (by simpa using not_lt.mp hb)]
      show (test_model_go batch_size rest
          (tl + b.loss * (b.labels.length : ℚ), (tally batch_size b cc ct).1,
            (tally batch_size b cc ct).2)).1 = _
      rw [ih]
      rfl

/-- The per-class `(class_correct, class_total)` tallies accumulated by
running `tally` over each batch of a list in order, starting from the pair
`p`. -/
def tally_batches (batch_size : ℕ) (batches : List TestBatch)
    (p : List ℚ × List ℚ) : List ℚ × List ℚ :=
  batches.foldl (fun p b => tally batch_size b p.1 p.2) p

lemma test_model_go_tallies (batch_size : ℕ) (batches : List TestBatch) :
    ∀ (tl : ℚ) (cc ct : List ℚ),
      (test_model_go batch_size batches (tl, cc, ct)).2
        = tally_batches batch_size
            (batches.takeWhile (fun b => decide (batch_size ≤ b.labels.length)))
            (cc, ct) := by
  induction batches with
  | nil => intro tl cc ct; rfl
  | cons b rest ih =>
    intro tl cc ct
    rw [test_model_go]
    by_cases hb : b.labels.length < batch_size
    · rw [if_pos hb,
        List.takeWhile_cons_of_neg (by simpa using not_le.mpr hb)]
      rfl
    · rw [if_neg hb,
        List.takeWhile_cons_of_pos (by simpa using not_lt.mp hb)]
      show (test_model_go batch_size rest
          (tl + b.loss * (b.labels.length : ℚ), (tally batch_size b cc ct).1,
            (tally batch_size b cc ct).2)).2 = _
      rw [ih]
      rfl

lemma train_loop_go_arrays (max_ni ni : ℕ) (tb vb : ℕ → List Batch)
    (nT nV : ℕ) (k : ℕ) :
    ∀ (epoch : ℕ) (st st' : LoopState),
      train_loop_go max_ni ni tb vb nT nV k epoch st = some st' →
      st'.train_loss_array.length
          = st.train_loss_array.length + (if max_ni ≤ ni then 0 else k)
        ∧ st'.valid_loss_array.length
          = st.valid_loss_array.length + (if max_ni ≤ ni then 0 else k) := by
  induction k with
  | zero =>
    intro epoch st st' h
    rw [train_loop_go] at h
    obtain rfl : st = st' := Option.some.inj h
    simp
  | succ k ih =>
    intro epoch st st' h
    rw [train_loop_go] at h
    by_cases hni : max_ni ≤ ni
    · rw [if_pos hni] at h
      obtain rfl : st = st' := Option.some.inj h
      simp [hni]
    · rw [if_neg hni] at h
      rw [if_neg hni]
      cases htm : train_model (tb epoch) 0 with
      | none => rw [htm] at h; exact absurd h (by simp)
      | some tl =>
        rw [htm] at h
        have harr := evaluate_model_arrays (vb epoch) nT nV tl 0
          st.valid_loss_min st.valid_loss_array st.train_loss_array epoch ni
        have hrec := ih (epoch + 1) _ st' h
        rw [if_neg hni] at hrec
        constructor
        · rw [hrec.1]
          show (evaluate_model (vb epoch) nT nV tl 0 st.valid_loss_min
              st.valid_loss_array st.train_loss_array epoch
              ni).train_loss_array.length + k = _
          rw [harr.1]
          simp
          omega
        · rw [hrec.2]
          show (evaluate_model (vb epoch) nT nV tl 0 st.valid_loss_min
              st.valid_loss_array st.train_loss_array epoch
              ni).valid_loss_array.length + k = _
          rw [harr.2]
          simp
          omega

lemma train_loop_go_vlm (max_ni ni : ℕ) (tb vb : ℕ → List Batch)
    (nT nV : ℕ) (k : ℕ) :
    ∀ (epoch : ℕ) (st st' : LoopState),
      train_loop_go max_ni ni tb vb nT nV k epoch st = some st' →
      optLE st'.valid_loss_min st.valid_loss_min := by
  induction k with
  | zero =>
    intro epoch st st' h
    rw [train_loop_go] at h
    obtain rfl : st = st' := Option.some.inj h
    exact optLE_refl _
  | succ k ih =>
    intro epoch st st' h
    rw [train_loop_go] at h
    by_cases hni : max_ni ≤ ni
    · rw [if_pos hni] at h
      obtain rfl : st = st' := Option.some.inj h
      exact optLE_refl _
    · rw [if_neg hni] at h
      cases htm : train_model (tb epoch) 0 with
      | none => rw [htm] at h; exact absurd h (by simp)
      | some tl =>
        rw [htm] at h
        have hstep := evaluate_model_vlm (vb epoch) nT nV tl 0
          st.valid_loss_min st.valid_loss_array st.train_loss_array epoch ni
        exact optLE_trans (ih (epoch + 1) _ st' h) hstep

/-- Claim C1: the spec requires `train_model` to process every batch of the
training source per epoch and not return after only the first batch.  The
code's `return train_loss` is indented inside the `for` body, so on a
two-batch loader (both of size 4, losses 1 and 10) it returns after the
first batch: the result is `some 4`, not the full-loop accumulation
`sum_batch_loss` (which would be 44). -/
theorem C1_train_model_returns_after_first_batch :
    train_model [⟨4, 1⟩, ⟨4, 10⟩] 0 = some 4
      ∧ train_model [⟨4, 1⟩, ⟨4, 10⟩] 0
        ≠ some (sum_batch_loss [⟨4, 1⟩, ⟨4, 10⟩] 0) := by
  constructor
  · norm_num [train_model]
  · norm_num [train_model, sum_batch_loss]

/-- Claim C2: with `epoch_count = 3`, `patience = 1` and per-epoch mean
validation losses 0.5, 0.6, 0.4, the loop is claimed to stop before epoch 3
runs.  In the code the counter incremented inside `evaluate_model` never
reaches `train_loop` (a Python `int` is passed by value), so the loop runs
all three epochs: the histories have three entries, epoch 3 included. -/
theorem C2_early_stopping_never_fires :
    train_loop 3 1 0 tb_demo vb_demo 1 1
        = some ([0, 0, 0], [1 / 2, 3 / 5, 2 / 5])
      ∧ (train_loop 3 1 0 tb_demo vb_demo 1 1).map (fun p => p.2.length)
        = some 3 := by
  have h : train_loop 3 1 0 tb_demo vb_demo 1 1
      = some ([0, 0, 0], [1 / 2, 3 / 5, 2 / 5]) := by
    norm_num [train_loop, train_loop_go, train_model, evaluate_model,
      sum_batch_loss, leInf, tb_demo, vb_demo]
  exact ⟨h, by rw [h]; rfl⟩

/-- Claim C3: the no-improvement counter consulted by the epoch loop is
claimed to reset on improvement and increment by exactly 1 otherwise.  In
the code the increment happens on `evaluate_model`'s local copy (here: its
`no_improvement` result field, equal to 1 after the non-improving epoch 2),
while the loop's own counter never changes: with patience 1 and strictly
worsening losses 0.5, 0.6, 0.7 all three epochs still run. -/
theorem C3_counter_update_not_propagated :
    (evaluate_model [⟨1, 3 / 5⟩] 1 1 0 0 (some (1 / 2)) [] [] 2
          0).no_improvement = 1
      ∧ train_loop 3 1 0 tb_demo vb_demo2 1 1
        = some ([0, 0, 0], [1 / 2, 3 / 5, 7 / 10]) := by
  constructor
  · norm_num [evaluate_model, sum_batch_loss, leInf]
  · norm_num [train_loop, train_loop_go, train_model, evaluate_model,
      sum_batch_loss, leInf, tb_demo, vb_demo2]

/-- Claim C4: across the epochs of one run, the best-validation-loss value
carried by the loop is monotonically non-increasing: whenever the epoch
loop runs from state `st` to state `st'`, the final `valid_loss_min` is at
most the initial one (in the order where the starting `np.Inf`, `none`,
is the top element). -/
theorem C4_valid_loss_min_monotone (max_ni ni : ℕ) (tb vb : ℕ → List Batch)
    (nT nV k epoch : ℕ) (st st' : LoopState)
    (h : train_loop_go max_ni ni tb vb nT nV k epoch st = some st') :
    optLE st'.valid_loss_min st.valid_loss_min :=
  train_loop_go_vlm max_ni ni tb vb nT nV k epoch st st' h

/-- Witness for C4: one executed epoch takes the state from
`valid_loss_min = none` (infinity) to `some (1/2)`, and `some (1/2)` is
indeed at most `none`. -/
theorem C4_valid_loss_min_monotone_witness :
    optLE (some ((1 : ℚ) / 2)) none :=
  C4_valid_loss_min_monotone 5 0 tb_demo vb_demo 1 1 1 1 ⟨none, [], []⟩
    ⟨some (1 / 2), [0], [1 / 2]⟩
    (by simp [train_loop_go, train_model, evaluate_model, sum_batch_loss,
      leInf, tb_demo, vb_demo])

/-- Claim C5: `evaluate_model` writes a checkpoint exactly when the epoch's
mean validation loss is `≤` the best so far, and the file written is the
epoch index zero-padded to 3 digits followed by `model_cifar.pt`. -/
theorem C5_checkpoint_iff_improved (vb : List Batch) (nT nV : ℕ)
    (tl vl : ℚ) (vlm : Option ℚ) (vla tla : List ℚ) (epoch ni : ℕ) :
    ((evaluate_model vb nT nV tl vl vlm vla tla epoch ni).saved
        = some (format03 epoch ++ "model_cifar.pt")
      ↔ leInf (sum_batch_loss vb vl / (nV : ℚ)) vlm = true)
    ∧ ((evaluate_model vb nT nV tl vl vlm vla tla epoch ni).saved = none
      ↔ ¬ leInf (sum_batch_loss vb vl / (nV : ℚ)) vlm = true) := by
  by_cases hc : leInf (sum_batch_loss vb vl / (nV : ℚ)) vlm = true
  · constructor
    · simp [evaluate_model, hc, save_filename]
    · simp [evaluate_model, hc]
  · constructor
    · simp [evaluate_model, hc]
    · simp [evaluate_model, hc]

/-- Claim C6: with a training source yielding zero batches, `train_model`
is claimed to return zero loss; the code's `for` body (which contains the
`return`) never runs, so Python returns `None` (`none`), not `some 0`. -/
theorem C6_empty_train_loader_returns_none :
    train_model [] 0 = none ∧ train_model [] 0 ≠ some 0 := by
  constructor
  · rfl
  · simp [train_model]

/-- Counterexample to C7: the guard `if len(target.data) < batch_size:
break` is a `break`, not a skip, so a full-size batch that comes after a
short batch is NOT included.  With configured batch size 2, batches of
sizes 2, 1, 2 (each with loss 1) and dataset size 5, the code's mean test
loss is 2/5, not the claimed sum over all full-size batches (4/5). -/
theorem C7_counterexample :
    (test_model 2 1
        [⟨1, [0, 0], [true, true]⟩, ⟨1, [0], [true]⟩,
          ⟨1, [0, 0], [true, true]⟩] 5).1 = 2 / 5
      ∧ (test_model 2 1
          [⟨1, [0, 0], [true, true]⟩, ⟨1, [0], [true]⟩,
            ⟨1, [0, 0], [true, true]⟩] 5).1
        ≠ test_loss_sum
            (List.filter (fun b => decide (2 ≤ b.labels.length))
              [⟨1, [0, 0], [true, true]⟩, ⟨1, [0], [true]⟩,
                ⟨1, [0, 0], [true, true]⟩]) 0 / 5 := by
  constructor
  · norm_num [test_model, test_model_go, tally, tally_step]
  · norm_num [test_model, test_model_go, tally, tally_step, test_loss_sum,
      List.filter]

/-- Claim C7 as amended: the retained batches are the longest initial
segment of full-size batches — iteration stops at the first batch shorter
than the configured batch size, so the short batch and every batch after it
are excluded from both loss and accuracy accumulation.  The reported mean
test loss is the sum of `batch_loss × batch_size` over that initial segment
divided by the total dataset size, and the per-class
`(class_correct, class_total)` tallies are those accumulated over exactly
that initial segment, starting from the zeroed counters.  (When only the
final batch can be short, as with a standard DataLoader, this coincides
with the original claim.) -/
theorem C7_amended_stop_at_first_short_batch (batch_size class_num : ℕ)
    (batches : List TestBatch) (dataset_size : ℕ) :
    (test_model batch_size class_num batches dataset_size).1
        = test_loss_sum
            (batches.takeWhile (fun b => decide (batch_size ≤ b.labels.length)))
            0 / (dataset_size : ℚ)
      ∧ (test_model batch_size class_num batches dataset_size).2
        = tally_batches batch_size
            (batches.takeWhile (fun b => decide (batch_size ≤ b.labels.length)))
            (List.replicate class_num 0, List.replicate class_num 0) := by
  constructor
  · simp only [test_model]
    rw [test_model_go_loss]
  · show (test_model_go batch_size batches
        (0, List.replicate class_num 0, List.replicate class_num 0)).2 = _
    rw [test_model_go_tallies]

/-- Claim C8: after a test pass, a class's accuracy is reported as `N/A`
(`none`) exactly when that class's accumulated total count is zero, and
otherwise the report is the class's correct count divided by its total
count. -/
theorem C8_class_report_na_iff_zero_total (batch_size class_num : ℕ)
    (batches : List TestBatch) (dataset_size i : ℕ) :
    (class_report (test_model batch_size class_num batches dataset_size).2.1
          (test_model batch_size class_num batches dataset_size).2.2 i = none
        ↔ (test_model batch_size class_num batches
            dataset_size).2.2.getD i 0 = 0)
      ∧ (class_report (test_model batch_size class_num batches
              dataset_size).2.1
            (test_model batch_size class_num batches dataset_size).2.2 i
            = none
        ∨ class_report (test_model batch_size class_num batches
              dataset_size).2.1
            (test_model batch_size class_num batches dataset_size).2.2 i
          = some ((test_model batch_size class_num batches
                dataset_size).2.1.getD i 0
              / (test_model batch_size class_num batches
                  dataset_size).2.2.getD i 0)) := by
  have hnn := nonnegL_getD
    (test_model_ct_nonneg batch_size class_num batches dataset_size) i
  unfold class_report
  by_cases hc :
      0 < (test_model batch_size class_num batches dataset_size).2.2.getD i 0
  · rw [if_pos hc]
    refine ⟨⟨fun hn => (Option.some_ne_none _ hn).elim,
      fun h0 => absurd (h0 ▸ hc) (lt_irrefl 0)⟩, Or.inr rfl⟩
  · rw [if_neg hc]
    exact ⟨⟨fun _ => le_antisymm (not_lt.mp hc) hnn, fun _ => rfl⟩,
      Or.inl rfl⟩

/-- Claim C9: `evaluate_model` divides the train-loss sum by the train
sampler's length and the accumulated validation-loss sum by the validation
sampler's length (sample counts, not batch counts), and appends the
resulting pair to the run's train and validation histories. -/
theorem C9_mean_normalization (vb : List Batch) (nT nV : ℕ) (tl vl : ℚ)
    (vlm : Option ℚ) (vla tla : List ℚ) (epoch ni : ℕ)
    (_hT : 0 < nT) (_hV : 0 < nV) :
    (evaluate_model vb nT nV tl vl vlm vla tla epoch ni).train_loss_array
        = tla ++ [tl / (nT : ℚ)]
      ∧ (evaluate_model vb nT nV tl vl vlm vla tla epoch ni).valid_loss_array
        = vla ++ [sum_batch_loss vb vl / (nV : ℚ)] :=
  evaluate_model_arrays vb nT nV tl vl vlm vla tla epoch ni

/-- Witness for C9 at a concrete input with both samplers of size 1. -/
theorem C9_mean_normalization_witness :
    0 < 1
      ∧ ((evaluate_model [⟨1, 1⟩] 1 1 2 0 none [] [] 1 0).train_loss_array
          = [] ++ [(2 : ℚ) / ((1 : ℕ) : ℚ)]
        ∧ (evaluate_model [⟨1, 1⟩] 1 1 2 0 none [] [] 1 0).valid_loss_array
          = [] ++ [sum_batch_loss [⟨1, 1⟩] 0 / ((1 : ℕ) : ℚ)]) :=
  ⟨Nat.one_pos, C9_mean_normalization [⟨1, 1⟩] 1 1 2 0 none [] [] 1 0
    Nat.one_pos Nat.one_pos⟩

/-- Claim C10: whenever `train_loop` returns (no crash from an empty train
loader), the two returned histories have equal length, namely the number of
epochs actually executed: 0 when the initial counter already meets the
patience bound (then both arrays are empty, having length zero), and
`n_epochs` otherwise, since each executed epoch appends exactly one entry
to each array. -/
theorem C10_history_lengths (n_epochs max_ni ni : ℕ)
    (tb vb : ℕ → List Batch) (nT nV : ℕ) (ta va : List ℚ)
    (h : train_loop n_epochs max_ni ni tb vb nT nV = some (ta, va)) :
    ta.length = va.length
      ∧ ta.length = (if max_ni ≤ ni then 0 else n_epochs) := by
  unfold train_loop at h
  obtain ⟨st, hst, hmap⟩ := Option.map_eq_some'.mp h
  have harr := train_loop_go_arrays max_ni ni tb vb nT nV n_epochs 1 _ st hst
  have hta : st.train_loss_array = ta := congrArg Prod.fst hmap
  have hva : st.valid_loss_array = va := congrArg Prod.snd hmap
  rw [hta, hva] at harr
  simp only [List.length_nil, Nat.zero_add] at harr
  exact ⟨harr.1.trans harr.2.symm, harr.1⟩

/-- Witness for C10: a one-epoch run returns histories `[0]` and `[1/2]`,
both of length 1. -/
theorem C10_history_lengths_witness :
    ([0] : List ℚ).length = ([1 / 2] : List ℚ).length
      ∧ ([0] : List ℚ).length = (if 5 ≤ 0 then 0 else 1) :=
  C10_history_lengths 1 5 0 tb_demo vb_demo 1 1 [0] [1 / 2]
    (by simp [train_loop, train_loop_go, train_model, evaluate_model,
      sum_batch_loss, leInf, tb_demo, vb_demo])

end NetworkHelpers
